import Mathlib

/-
  Verification of the run-coordination core of the claude-code-changelog
  repository: distributed lock (src/db/redis.ts), version novelty detection
  and orchestration (src/workers/notify-all.ts), the summary cache
  (src/cache/summary-cache.ts) with its language validation
  (src/utils/language.ts), and the fan-out delivery
  (src/services/slack.ts).

  The Redis key-value store is modelled as typed partial maps (one per key
  family; the string keys "lock:<name>", "summary:<version>:<language>" and
  "state:failed_workspaces:<teamId>" are injective in their components, so a
  typed map per family is a faithful rendering of the shared keyspace).
  Asynchronous effects are modelled by explicit state passing; a call that
  can throw is modelled with Option/Except where the source catches it.
  External collaborators (GitHub fetches, the summarizer, the Slack
  delivery transport) enter as oracle values and oracle functions.
-/

namespace Changelog

/-- The two supported languages, from src/types/index.ts
(`type Language = "en" | "ko"`). -/
inductive Language where
  | en
  | ko
deriving DecidableEq, Repr

/-- String form of a language, as it appears interpolated into
JS template strings such as error messages. -/
def languageCode : Language → String
  | .en => "en"
  | .ko => "ko"

/-- ChangeSummary.flagChanges, from src/types/index.ts. -/
structure FlagChanges where
  added : List String
  removed : List String
  modified : List String
deriving DecidableEq, Repr

/-- ChangeSummary, from src/types/index.ts. -/
structure ChangeSummary where
  version : String
  summary : String
  cliChanges : List String
  promptChanges : List String
  flagChanges : FlagChanges
deriving DecidableEq, Repr

/-- A hangul character, per the character class HANGUL_REGEX of
src/utils/language.ts (syllables, jamo, compatibility jamo). -/
def isHangulChar (c : Char) : Bool :=
  (0xAC00 ≤ c.toNat && c.toNat ≤ 0xD7AF) ||
  (0x1100 ≤ c.toNat && c.toNat ≤ 0x11FF) ||
  (0x3130 ≤ c.toNat && c.toNat ≤ 0x318F)

/-- containsKorean from src/utils/language.ts: HANGUL_REGEX.test(text). -/
def containsKorean (text : String) : Bool :=
  text.data.any isHangulChar

/-- validateArrayKorean from src/utils/language.ts: empty arrays pass;
otherwise at least 50% of items must contain Korean characters.  The JS
float comparison `koreanCount / items.length >= 0.5` is rendered exactly
as `items.length ≤ 2 * koreanCount`. -/
def validateArrayKorean (items : List String) : Bool :=
  if items.length = 0 then true
  else decide (items.length ≤ 2 * (items.filter containsKorean).length)

/-- validateSummaryLanguage from src/utils/language.ts. -/
def validateSummaryLanguage (summary : ChangeSummary) (language : Language) :
    Bool :=
  match language with
  | .en => true
  | .ko => containsKorean summary.summary && validateArrayKorean summary.cliChanges

/-- hasSubstantialContent from src/cache/summary-cache.ts. -/
def hasSubstantialContent (summary : ChangeSummary) : Bool :=
  decide (summary.cliChanges.length > 0) ||
  decide (summary.promptChanges.length > 0) ||
  decide (summary.flagChanges.added.length > 0) ||
  decide (summary.flagChanges.removed.length > 0) ||
  decide (summary.flagChanges.modified.length > 0)

/-! ### Version parsing and comparison (src/workers/notify-all.ts) -/

/-- Numeric value of a decimal digit string, as produced by parseInt on a
capture group of decimal digits. -/
def digitsToNat (ds : List Char) : Nat :=
  ds.foldl (fun n c => 10 * n + (c.toNat - 48)) 0

/-- Attempt to match the regex `(\d+)\.(\d+)\.(\d+)` at the head of the
character list: a maximal nonempty digit run, a dot, a maximal nonempty
digit run, a dot, a maximal nonempty digit run.  (Greedy `\d+` followed by
`\.` backtracks only to states whose next character is a digit, so it is
equivalent to the maximal run.) -/
def matchVersionAt (cs : List Char) : Option (Nat × Nat × Nat) :=
  let s1 := cs.span Char.isDigit
  if s1.1.isEmpty then none
  else
    match s1.2 with
    | '.' :: r2 =>
      let s2 := r2.span Char.isDigit
      if s2.1.isEmpty then none
      else
        match s2.2 with
        | '.' :: r4 =>
          let s3 := r4.span Char.isDigit
          if s3.1.isEmpty then none
          else some (digitsToNat s1.1, digitsToNat s2.1, digitsToNat s3.1)
        | _ => none
    | _ => none

/-- Leftmost match of `(\d+)\.(\d+)\.(\d+)`: JS regex search tries each
start position from the left. -/
def findVersionMatch : List Char → Option (Nat × Nat × Nat)
  | [] => none
  | c :: cs =>
    match matchVersionAt (c :: cs) with
    | some t => some t
    | none => findVersionMatch cs

/-- parseVersion from isNewerVersion (src/workers/notify-all.ts
lines 264-268): first regex match of `(\d+)\.(\d+)\.(\d+)`, collapsing to
(0, 0, 0) when there is no match. -/
def parseVersion (v : String) : Nat × Nat × Nat :=
  (findVersionMatch v.data).getD (0, 0, 0)

/-- isNewerVersion from src/workers/notify-all.ts lines 261-276.  The JS
guard `if (!last) return true` fires for null and for the empty string
(both falsy), so the baseline is an Option and the empty string is
special-cased. -/
def isNewerVersion (current : String) (last : Option String) : Bool :=
  match last with
  | none => true
  | some l =>
    if l = "" then true
    else
      let cur := parseVersion current
      let lst := parseVersion l
      if cur.1 ≠ lst.1 then decide (cur.1 > lst.1)
      else if cur.2.1 ≠ lst.2.1 then decide (cur.2.1 > lst.2.1)
      else decide (cur.2.2 > lst.2.2)

/-- The spec's reading of the comparison: strict lexicographic order on the
(major, minor, patch) triple.  Stated from the spec's words, to be compared
with the source-derived isNewerVersion. -/
def specLexGt (a b : Nat × Nat × Nat) : Prop :=
  a.1 > b.1 ∨ (a.1 = b.1 ∧ (a.2.1 > b.2.1 ∨ (a.2.1 = b.2.1 ∧ a.2.2 > b.2.2)))

instance (a b : Nat × Nat × Nat) : Decidable (specLexGt a b) := by
  unfold specLexGt; infer_instance

/-! ### Distributed lock (src/db/redis.ts) -/

/-- The lock keyspace `lock:<name>`, as a partial map from lock name to the
stored holder token. -/
def LockStore : Type := String → Option String

/-- acquireLock from src/db/redis.ts lines 115-138: a single atomic
`SET key value NX EX ttl`.  The freshly generated UUID is passed in as
`lockValue` (crypto.randomUUID is nondeterministic); the TTL is kept as a
parameter but no clock is modelled, so expiry does not occur between the
operations under study. -/
def acquireLock (st : LockStore) (lockKey : String) (_ttlSeconds : Nat)
    (lockValue : String) : LockStore × Option String :=
  match st lockKey with
  | some _ => (st, none)
  | none => (fun k => if k = lockKey then some lockValue else st k, some lockValue)

/-- releaseLock from src/db/redis.ts lines 147-179: the atomic Lua
check-and-delete (`if get(k) == v then del(k) else 0`). -/
def releaseLock (st : LockStore) (lockKey : String) (lockValue : String) :
    LockStore × Bool :=
  match st lockKey with
  | some v =>
    if v = lockValue then ((fun k => if k = lockKey then none else st k), true)
    else (st, false)
  | none => (st, false)

/-! ### Summary cache (src/cache/summary-cache.ts) -/

/-- SUPPORTED_LANGUAGES from src/cache/summary-cache.ts. -/
def SUPPORTED_LANGUAGES : List Language := [.en, .ko]

/-- The summary keyspace `summary:<version>:<language>` as a typed partial
map; `summaryKey` is injective in (version, language) because the language
suffix is a fixed two-letter code. -/
def SummaryStore : Type := String → Language → Option ChangeSummary

/-- Write one summary key (the plain `redis.set`; TTL not modelled). -/
def storePut (st : SummaryStore) (version : String) (language : Language)
    (summary : ChangeSummary) : SummaryStore :=
  fun v l => if v = version ∧ l = language then some summary else st v l

/-- Delete one summary key (`redis.del`). -/
def storeDel (st : SummaryStore) (version : String) (language : Language) :
    SummaryStore :=
  fun v l => if v = version ∧ l = language then none else st v l

/-- Lookup in an association list keyed by Language (the JS
Map<Language, ChangeSummary> read path). -/
def lookupLang : List (Language × ChangeSummary) → Language → Option ChangeSummary
  | [], _ => none
  | p :: rest, l => if p.1 = l then some p.2 else lookupLang rest l

/-- SummaryCache.get from src/cache/summary-cache.ts lines 31-56: read the
key, re-validate language conformance, and on failure delete the entry and
return absent. -/
def SummaryCache.get (st : SummaryStore) (version : String)
    (language : Language) : SummaryStore × Option ChangeSummary :=
  match st version language with
  | some cached =>
    if validateSummaryLanguage cached language then (st, some cached)
    else (storeDel st version language, none)
  | none => (st, none)

/-- SummaryCache.set from src/cache/summary-cache.ts lines 58-90: silently
skip the write when the substantial-content check or the language check
fails, otherwise store the entry (TTL not modelled). -/
def SummaryCache.set (st : SummaryStore) (version : String)
    (language : Language) (summary : ChangeSummary) : SummaryStore :=
  if !hasSubstantialContent summary then st
  else if !validateSummaryLanguage summary language then st
  else storePut st version language summary

/-- One step of the getAll loop body (src/cache/summary-cache.ts
lines 100-113): a present value is kept when it passes language
validation, otherwise its key is deleted. -/
def getAllStep (version : String)
    (acc : SummaryStore × List (Language × ChangeSummary)) (lang : Language) :
    SummaryStore × List (Language × ChangeSummary) :=
  match acc.1 version lang with
  | some value =>
    if validateSummaryLanguage value lang then (acc.1, acc.2 ++ [(lang, value)])
    else (storeDel acc.1 version lang, acc.2)
  | none => acc

/-- SummaryCache.getAll from src/cache/summary-cache.ts lines 92-119:
batch-read every supported language and self-heal polluted entries. -/
def getAll (st : SummaryStore) (version : String) :
    SummaryStore × List (Language × ChangeSummary) :=
  SUPPORTED_LANGUAGES.foldl (getAllStep version) (st, [])

/-- One step of the pregenerate generation loop (src/cache/summary-cache.ts
lines 146-167).  `gen lang = none` models a generateFn rejection, which the
source catches and logs; a produced summary is written through `set` and
added to the results only when it passes language validation. -/
def pregenStep (version : String) (gen : Language → Option ChangeSummary)
    (acc : SummaryStore × List (Language × ChangeSummary) × List Language)
    (lang : Language) :
    SummaryStore × List (Language × ChangeSummary) × List Language :=
  match gen lang with
  | none => (acc.1, acc.2.1, acc.2.2 ++ [lang])
  | some summary =>
    let st' := SummaryCache.set acc.1 version lang summary
    if validateSummaryLanguage summary lang then
      (st', acc.2.1 ++ [(lang, summary)], acc.2.2 ++ [lang])
    else
      (st', acc.2.1, acc.2.2 ++ [lang])

/-- SummaryCache.pregenerate from src/cache/summary-cache.ts lines 121-172:
reuse cached valid entries, generate the missing languages, and return
(updated store, result mapping, languages passed to generateFn).  The
source fires the generations concurrently via Promise.all; each branch
touches only its own (version, language) key and its own result slot, so
the interleaving is modelled by the sequential fold. -/
def pregenerate (st : SummaryStore) (version : String)
    (gen : Language → Option ChangeSummary) :
    SummaryStore × List (Language × ChangeSummary) × List Language :=
  let ga := getAll st version
  let missing := SUPPORTED_LANGUAGES.filter (fun l => (lookupLang ga.2 l).isNone)
  if missing.isEmpty then (ga.1, ga.2, [])
  else missing.foldl (pregenStep version gen) (ga.1, ga.2, [])

/-! ### Fan-out delivery (src/services/slack.ts) -/

/-- The fields of a registered workspace consumed by the delivery and retry
logic (src/types/database.ts; botToken/channelId are opaque to the modelled
control flow and are omitted). -/
structure Workspace where
  teamId : String
  teamName : String
  language : Language
deriving DecidableEq, Repr

/-- SlackMessage from src/types/index.ts. -/
structure SlackMessage where
  version : String
  summary : ChangeSummary
  compareUrl : String
  cliCompareUrl : String
deriving DecidableEq, Repr

/-- NotificationResult from src/services/slack.ts lines 409-413; the Error
is carried as its message string. -/
structure NotificationResult where
  workspace : Workspace
  success : Bool
  error : Option String
deriving DecidableEq, Repr

/-- CONCURRENCY_LIMIT from src/services/slack.ts. -/
def CONCURRENCY_LIMIT : Nat := 10

/-- processInBatches from src/services/slack.ts lines 420-434: slice the
items into windows of `concurrency`, settle each window, and concatenate.
The source loop diverges when concurrency = 0; callers pass 10, and the
model takes max(concurrency, 1) elements per window so that it is total. -/
def processInBatches {α β : Type} : List α → (α → β) → Nat → List β
  | [], _, _ => []
  | x :: xs, processor, concurrency =>
    ((x :: xs.take (concurrency - 1)).map processor) ++
      processInBatches (xs.drop (concurrency - 1)) processor concurrency
termination_by items _ _ => items.length
decreasing_by
  simp only [List.length_cons, List.length_drop]
  omega

/-- The delivery processor from sendNotificationToWorkspaces
(src/services/slack.ts lines 441-473).  `sendOutcome w = none` means
sendWorkspaceNotification resolved; `some e` means it threw an error with
message `e` (caught by the processor).  The Bool records whether a delivery
attempt (a sendWorkspaceNotification call) was made for the workspace. -/
def notifyProcessor (summariesByLanguage : List (Language × ChangeSummary))
    (sendOutcome : Workspace → Option String) (workspace : Workspace) :
    NotificationResult × Bool :=
  match lookupLang summariesByLanguage workspace.language with
  | none =>
    (⟨workspace, false,
      some ("No summary for language: " ++ languageCode workspace.language)⟩,
     false)
  | some _ =>
    match sendOutcome workspace with
    | none => (⟨workspace, true, none⟩, true)
    | some e => (⟨workspace, false, some e⟩, true)

/-- Placeholder used by the defensive branch of sendNotificationToWorkspaces
for a rejected settled result (src/services/slack.ts lines 487-491). -/
def unknownWorkspace : Workspace :=
  ⟨"unknown", "unknown", .en⟩

/-- sendNotificationToWorkspaces from src/services/slack.ts lines 436-493:
fan out the processor over the workspaces in batches of CONCURRENCY_LIMIT
with allSettled semantics (the Except wrapper), then extract; the processor
itself never throws, so the defensive .error branch is dead.  Returns the
results plus the list of teamIds for which a delivery attempt was made. -/
def sendNotificationToWorkspaces (workspaces : List Workspace)
    (_message : SlackMessage)
    (summariesByLanguage : List (Language × ChangeSummary))
    (sendOutcome : Workspace → Option String) :
    List NotificationResult × List String :=
  let settled :=
    processInBatches workspaces
      (fun w => (Except.ok (notifyProcessor summariesByLanguage sendOutcome w) :
        Except String (NotificationResult × Bool)))
      CONCURRENCY_LIMIT
  let pairs := settled.map (fun r =>
    match r with
    | .ok v => v
    | .error e => (⟨unknownWorkspace, false, some e⟩, false))
  (pairs.map (fun p => p.1),
   (pairs.filter (fun p => p.2)).map (fun p => p.1.workspace.teamId))

/-! ### Failure tracker (src/db/state.ts) -/

/-- FailedNotification from src/db/state.ts. -/
structure FailedNotification where
  teamId : String
  version : String
  reason : String
  timestamp : String
  retryCount : Nat
deriving DecidableEq, Repr

/-- Read of the key `state:failed_workspaces:<teamId>`: the failure store
is an association list with at most one record per teamId. -/
def lookupF : List FailedNotification → String → Option FailedNotification
  | [], _ => none
  | r :: rest, id => if r.teamId = id then some r else lookupF rest id

/-- removeFailedWorkspace from src/db/state.ts: delete the record keyed by
the teamId. -/
def removeF (st : List FailedNotification) (id : String) :
    List FailedNotification :=
  st.filter (fun r => r.teamId ≠ id)

/-- addFailedWorkspace from src/db/state.ts: `redis.set` on the record's
key, i.e. an upsert. -/
def addF (st : List FailedNotification) (rec : FailedNotification) :
    List FailedNotification :=
  removeF st rec.teamId ++ [rec]

/-! ### Retry phase (src/workers/notify-all.ts lines 489-588) -/

/-- MAX_RETRIES from src/workers/notify-all.ts. -/
def MAX_RETRIES : Nat := 3

/-- The workspaceMap lookup (`new Map(workspaces.map(w => [w.teamId, w]))`
followed by `.get`): the last entry with a given teamId wins. -/
def wsLookup (workspaces : List Workspace) (id : String) : Option Workspace :=
  workspaces.foldl (fun acc w => if w.teamId = id then some w else acc) none

/-- State threaded through the retry phase: the failure store, the summary
cache store (getAll may self-heal entries), and the teamIds for which a
retry delivery attempt was made. -/
structure RetryState where
  failed : List FailedNotification
  cache : SummaryStore
  attempts : List String

/-- Handling of one failed record inside the per-version loop
(src/workers/notify-all.ts lines 531-586): drop records past MAX_RETRIES
and records of inactive workspaces; resolve the summary with fallback to
any available language; `sendOutcome w = none` models a successful
sendWorkspaceNotification (record removed), `some e` a thrown error
(record upserted with retryCount + 1, fresh timestamp, reason `e`). -/
def processFailure (workspaces : List Workspace)
    (summariesByLanguage : List (Language × ChangeSummary))
    (sendOutcome : Workspace → Option String) (now : String)
    (st : RetryState) (failed : FailedNotification) : RetryState :=
  if MAX_RETRIES ≤ failed.retryCount then
    { st with failed := removeF st.failed failed.teamId }
  else
    match wsLookup workspaces failed.teamId with
    | none => { st with failed := removeF st.failed failed.teamId }
    | some workspace =>
      let effectiveSummary :=
        match lookupLang summariesByLanguage workspace.language with
        | some s => some s
        | none =>
          summariesByLanguage.head?.map
            (fun (p : Language × ChangeSummary) => p.2)
      match effectiveSummary with
      | none => st
      | some _ =>
        match sendOutcome workspace with
        | none =>
          { st with failed := removeF st.failed failed.teamId,
                    attempts := st.attempts ++ [failed.teamId] }
        | some e =>
          { st with
              failed := addF st.failed
                { failed with retryCount := failed.retryCount + 1,
                              timestamp := now, reason := e },
              attempts := st.attempts ++ [failed.teamId] }

/-- One iteration of the per-version loop (src/workers/notify-all.ts
lines 511-587): fetch the cached summaries for the version; with none
available, drop every failure of that version without an attempt;
otherwise process each failure. -/
def processGroup (workspaces : List Workspace)
    (sendOutcome : Workspace → Option String) (now : String)
    (st : RetryState) (group : String × List FailedNotification) : RetryState :=
  let ga := getAll st.cache group.1
  if ga.2.isEmpty then
    { failed := group.2.foldl (fun s f => removeF s f.teamId) st.failed,
      cache := ga.1, attempts := st.attempts }
  else
    group.2.foldl (processFailure workspaces ga.2 sendOutcome now)
      { st with cache := ga.1 }

/-- The first-occurrence order of versions among the failed records (the
key order of the JS Map built at src/workers/notify-all.ts lines 504-509). -/
def versionsInOrder (failedWorkspaces : List FailedNotification) : List String :=
  failedWorkspaces.foldl
    (fun acc f => if f.version ∈ acc then acc else acc ++ [f.version]) []

/-- failuresByVersion (src/workers/notify-all.ts lines 504-509): group the
failed records by version, keeping both the first-occurrence order of the
versions and the record order inside each group — exactly the insertion
order of the JS Map. -/
def groupByVersion (failedWorkspaces : List FailedNotification) :
    List (String × List FailedNotification) :=
  (versionsInOrder failedWorkspaces).map
    (fun v => (v, failedWorkspaces.filter (fun f => f.version = v)))

/-- retryPreviouslyFailedNotifications from src/workers/notify-all.ts
lines 489-588.  The snapshot of the failure store is grouped by version
and processed against the live stores. -/
def retryPreviouslyFailedNotifications (failedStore : List FailedNotification)
    (workspaces : List Workspace) (cache : SummaryStore)
    (sendOutcome : Workspace → Option String) (now : String) : RetryState :=
  if failedStore.isEmpty then ⟨failedStore, cache, []⟩
  else
    (groupByVersion failedStore).foldl
      (processGroup workspaces sendOutcome now) ⟨failedStore, cache, []⟩

/-! ### Run orchestrator (src/workers/notify-all.ts lines 281-481) -/

/-- TagInfo from src/types/index.ts. -/
structure TagInfo where
  name : String
  commitSha : String
  date : String
deriving DecidableEq, Repr

/-- FileDiff from src/types/index.ts. -/
structure FileDiff where
  filename : String
  patch : String
  additions : Nat
  deletions : Nat
deriving DecidableEq, Repr

/-- ChangelogDiff from src/types/index.ts. -/
structure ChangelogDiff where
  fromVersion : String
  toVersion : String
  files : List FileDiff
  compareUrl : String
deriving DecidableEq, Repr

/-- Result shape of getCliChangelog (src/services/github.ts). -/
structure CliResult where
  changes : List String
  compareUrl : String
deriving DecidableEq, Repr

/-- The failure-recording loop of executeNotification
(src/workers/notify-all.ts lines 446-465): every failed result is upserted
with retryCount 0 and the error message (or "Unknown error") as reason. -/
def recordFailures (st : List FailedNotification)
    (results : List NotificationResult) (version : String) (now : String) :
    List FailedNotification :=
  (results.filter (fun r => !r.success)).foldl
    (fun s r =>
      addF s
        { teamId := r.workspace.teamId, version := version,
          reason := r.error.getD "Unknown error", timestamp := now,
          retryCount := 0 })
    st

/-- The cleanup loop of executeNotification (src/workers/notify-all.ts
lines 468-474): successful workspaces are removed from the failed list. -/
def clearSucceeded (st : List FailedNotification)
    (results : List NotificationResult) : List FailedNotification :=
  (results.filter (fun r => r.success)).foldl
    (fun s r => removeF s r.workspace.teamId) st

/-- The environment of one orchestrator invocation: external collaborator
results (GitHub fetches, the summarizer, the Slack transport outcome) as
oracles, plus the store contents at entry.  `cliChangelog = none` models a
getCliChangelog rejection (caught at src/workers/notify-all.ts
lines 367-380); `gen l = none` a generateSummary failure for language l;
`sendOutcome w` the outcome of sendWorkspaceNotification for workspace w
(none = resolved, some e = threw with message e). -/
structure Env where
  latestTag : Option TagInfo
  lastCheckedVersion : Option String
  activeWorkspaces : List Workspace
  diff : ChangelogDiff
  cliChangelog : Option CliResult
  cacheStore : SummaryStore
  gen : Language → Option ChangeSummary
  failedStore : List FailedNotification
  sendOutcome : Workspace → Option String
  now : String

/-- Observable effects of one executeNotification call: final failure and
cache stores, retry-phase delivery attempts, the main fan-out outcome
(none when the pass exits before delivery), every setLastCheckedVersion
argument in call order, whether setLastNotificationTime ran, and the
recordError message if any. -/
structure RunEffects where
  failed : List FailedNotification
  cache : SummaryStore
  retryAttempts : List String
  mainDelivery : Option (List NotificationResult × List String)
  versionWrites : List String
  notificationTimeSet : Bool
  errorRecorded : Option String

/-- executeNotification from src/workers/notify-all.ts lines 310-481:
retry prior failures, detect a new version, degrade gracefully on a CLI
changelog failure, skip-and-advance on no relevant changes, pre-generate
summaries, abort (recording an error, not advancing) when none was
produced, otherwise fan out, record outcomes and advance the version
state. -/
def executeNotification (env : Env) : RunEffects :=
  let rs := retryPreviouslyFailedNotifications env.failedStore
    env.activeWorkspaces env.cacheStore env.sendOutcome env.now
  match env.latestTag with
  | none => ⟨rs.failed, rs.cache, rs.attempts, none, [], false, none⟩
  | some latestTag =>
    if !isNewerVersion latestTag.name env.lastCheckedVersion then
      ⟨rs.failed, rs.cache, rs.attempts, none, [], false, none⟩
    else if env.activeWorkspaces.isEmpty then
      ⟨rs.failed, rs.cache, rs.attempts, none, [latestTag.name], false, none⟩
    else
      let cliResult := env.cliChangelog.getD ⟨[], ""⟩
      if env.diff.files.isEmpty && cliResult.changes.isEmpty then
        ⟨rs.failed, rs.cache, rs.attempts, none, [latestTag.name], false, none⟩
      else
        let pg := pregenerate rs.cache latestTag.name env.gen
        if pg.2.1.isEmpty then
          ⟨rs.failed, pg.1, rs.attempts, none, [], false,
           some "Failed to generate any summaries, cannot proceed"⟩
        else
          let placeholder :=
            match lookupLang pg.2.1 .en with
            | some s => some s
            | none =>
              pg.2.1.head?.map (fun (p : Language × ChangeSummary) => p.2)
          match placeholder with
          | none =>
            -- defensive branch of src/workers/notify-all.ts lines 411-414,
            -- dead because pg.2.1 is nonempty here
            ⟨rs.failed, pg.1, rs.attempts, none, [], false, none⟩
          | some placeholderSummary =>
            let message : SlackMessage :=
              ⟨latestTag.name, placeholderSummary, env.diff.compareUrl,
               cliResult.compareUrl⟩
            let sr := sendNotificationToWorkspaces env.activeWorkspaces
              message pg.2.1 env.sendOutcome
            let failed2 := recordFailures rs.failed sr.1 latestTag.name env.now
            let failed3 := clearSucceeded failed2 sr.1
            ⟨failed3, pg.1, rs.attempts, some sr, [latestTag.name], true, none⟩

/-- NOTIFICATION_LOCK_KEY from src/workers/notify-all.ts. -/
def NOTIFICATION_LOCK_KEY : String := "notification"

/-- NOTIFICATION_LOCK_TTL from src/workers/notify-all.ts. -/
def NOTIFICATION_LOCK_TTL : Nat := 300

/-- Outcome of one runMultiWorkspaceNotification call: the effects, the
final lock keyspace, and the releaseLock result (none when the lock was
never acquired, so release was never attempted). -/
structure RunOutcome where
  effects : RunEffects
  lockStore : LockStore
  lockReleased : Option Bool

/-- runMultiWorkspaceNotification from src/workers/notify-all.ts
lines 281-308: acquire the lock (exiting silently when contended), run the
pass, and release the lock in the finally block. -/
def runMultiWorkspaceNotification (lockSt : LockStore) (env : Env)
    (lockValue : String) : RunOutcome :=
  let a := acquireLock lockSt NOTIFICATION_LOCK_KEY NOTIFICATION_LOCK_TTL
    lockValue
  match a.2 with
  | none =>
    ⟨⟨env.failedStore, env.cacheStore, [], none, [], false, none⟩, a.1, none⟩
  | some token =>
    let eff := executeNotification env
    let r := releaseLock a.1 NOTIFICATION_LOCK_KEY token
    ⟨eff, r.1, some r.2⟩

/-! ### Concrete fixtures used by witnesses -/

/-- A summary whose text and items are English-only (no hangul). -/
def englishSummary : ChangeSummary :=
  ⟨"1.0.0", "english only text", ["english item"], [], ⟨[], [], []⟩⟩

/-- A summary with Korean text and a Korean list item. -/
def koreanSummary : ChangeSummary :=
  ⟨"1.0.0", "한국어 요약", ["한국어 항목"], [], ⟨[], [], []⟩⟩

/-- An empty lock keyspace. -/
def emptyLockStore : LockStore := fun _ => none

/-- An empty summary keyspace. -/
def emptySummaryStore : SummaryStore := fun _ _ => none

/-- A summary keyspace holding one polluted entry: an English-only summary
stored under the Korean key for version 1.0.0 (as if written directly to
the store, bypassing set's validation). -/
def pollutedStore : SummaryStore :=
  fun v l => if v = "1.0.0" ∧ l = Language.ko then some englishSummary else none

/-- A working generator for both supported languages. -/
def demoGen : Language → Option ChangeSummary
  | .en => some englishSummary
  | .ko => some koreanSummary

/-- A generator whose Korean generation throws. -/
def partialGen : Language → Option ChangeSummary
  | .en => some englishSummary
  | .ko => none

/-- A failed-delivery record for workspace T1 at retryCount 2. -/
def failedT1 : FailedNotification := ⟨"T1", "1.0.0", "err", "t0", 2⟩

/-- One active workspace T1 preferring English. -/
def demoWorkspaces : List Workspace := [⟨"T1", "W1", .en⟩]

/-- A cache holding a valid English summary for version 1.0.0. -/
def demoCache : SummaryStore :=
  fun v l => if v = "1.0.0" ∧ l = Language.en then some englishSummary
             else none

/-- A delivery transport that always throws "boom". -/
def failingSend : Workspace → Option String := fun _ => some "boom"

/-- A run environment in which version 2.0.0 is newly detected with
relevant flag changes and one active workspace, but the cache is empty and
the summarizer fails for every language. -/
def demoAbortEnv : Env :=
  { latestTag := some ⟨"2.0.0", "sha", "2026-01-01"⟩,
    lastCheckedVersion := some "1.0.0",
    activeWorkspaces := [⟨"T1", "W1", .en⟩],
    diff := ⟨"1.0.0", "2.0.0", [⟨"cc-flags.md", "patch", 1, 0⟩], "url"⟩,
    cliChangelog := some ⟨["some change"], "curl"⟩,
    cacheStore := emptySummaryStore,
    gen := fun _ => none,
    failedStore := [],
    sendOutcome := fun _ => none,
    now := "t" }

/-! ### Theorems -/

/-- Claim C1: for two acquire calls on the same lock name made while a
previously issued token for that name is still live (no release and no TTL
expiry in between), at most one call returns a non-null holder token; in
particular two back-to-back acquires with no release between give a
non-null token on the first call and null on the second. -/
theorem acquireLock_mutual_exclusion (st : LockStore) (k : String)
    (ttl1 ttl2 : Nat) (v1 v2 : String) :
    (((acquireLock st k ttl1 v1).2.isSome &&
        (acquireLock (acquireLock st k ttl1 v1).1 k ttl2 v2).2.isSome) = false)
    ∧ (st k = none →
        (acquireLock st k ttl1 v1).2 = some v1 ∧
        (acquireLock (acquireLock st k ttl1 v1).1 k ttl2 v2).2 = none)
    ∧ (∀ t, st k = some t →
        (acquireLock st k ttl1 v1).2 = none ∧
        (acquireLock (acquireLock st k ttl1 v1).1 k ttl2 v2).2 = none) := by
  cases h : st k with
  | none => simp [acquireLock, h]
  | some t => simp [acquireLock, h]

/-- Witness for C1: the literal scenario acquire("notification", 300)
twice back-to-back on a free lock. -/
theorem acquireLock_mutual_exclusion_witness :
    (acquireLock emptyLockStore "notification" 300 "uuid-1").2 = some "uuid-1" ∧
    (acquireLock (acquireLock emptyLockStore "notification" 300 "uuid-1").1
      "notification" 300 "uuid-2").2 = none :=
  (acquireLock_mutual_exclusion emptyLockStore "notification" 300 300
    "uuid-1" "uuid-2").2.1 rfl

/-- Claim C8: release(name, tokenA) is an atomic compare-and-delete — when
the stored holder token is tokenA the key is deleted and release returns
true; when the stored token differs or the lock is absent, release returns
false and leaves the store untouched. -/
theorem releaseLock_ownership (st : LockStore) (k tA : String) :
    (st k = some tA →
      (releaseLock st k tA).2 = true ∧ (releaseLock st k tA).1 k = none)
    ∧ (∀ tB, st k = some tB → tB ≠ tA → releaseLock st k tA = (st, false))
    ∧ (st k = none → releaseLock st k tA = (st, false)) := by
  refine ⟨fun h => ?_, fun tB h hne => ?_, fun h => ?_⟩
  · simp [releaseLock, h]
  · simp [releaseLock, h, hne]
  · simp [releaseLock, h]

/-- Witness for C8: a lock held by token "uuid-b" refuses release with
token "uuid-a" without deleting the key, and releases with "uuid-b". -/
theorem releaseLock_ownership_witness :
    (releaseLock (fun k => if k = "notification" then some "uuid-b" else none)
        "notification" "uuid-a" =
      ((fun k => if k = "notification" then some "uuid-b" else none), false))
    ∧ ((releaseLock
        (fun k => if k = "notification" then some "uuid-b" else none)
        "notification" "uuid-b").2 = true) := by
  constructor
  · exact (releaseLock_ownership
      (fun k => if k = "notification" then some "uuid-b" else none)
      "notification" "uuid-a").2.1 "uuid-b" (by simp) (by decide)
  · exact ((releaseLock_ownership
      (fun k => if k = "notification" then some "uuid-b" else none)
      "notification" "uuid-b").1 (by simp)).1

/-- Claim C9: a cached entry that fails the language-conformance
re-validation on read is deleted from the store and get returns absent —
the read path self-heals cache pollution. -/
theorem summaryCache_get_self_healing (st : SummaryStore) (v : String)
    (l : Language) (s : ChangeSummary) (h1 : st v l = some s)
    (h2 : validateSummaryLanguage s l = false) :
    (SummaryCache.get st v l).2 = none ∧
    (SummaryCache.get st v l).1 v l = none := by
  simp [SummaryCache.get, h1, h2, storeDel]

/-- Witness for C9: an English-only summary polluting the Korean key of
version 1.0.0 is purged by get. -/
theorem summaryCache_get_self_healing_witness :
    (SummaryCache.get pollutedStore "1.0.0" .ko).2 = none ∧
    (SummaryCache.get pollutedStore "1.0.0" .ko).1 "1.0.0" .ko = none :=
  summaryCache_get_self_healing pollutedStore "1.0.0" .ko englishSummary
    (by simp [pollutedStore]) (by decide)

/-- Counterexample for C4 as stated: with the empty string as baseline the
source returns true (the JS falsy guard `if (!last) return true` fires for
"" as well as null), whereas parsing "" to (0,0,0) and comparing
lexicographically with an unparseable candidate (also (0,0,0)) would give
false.  So "parses each argument … compares the triples lexicographically"
fails at candidate "abc", baseline "". -/
theorem isNewerVersion_empty_baseline_counterexample :
    ¬(isNewerVersion "abc" (some "") = true ↔
      specLexGt (parseVersion "abc") (parseVersion "")) := by
  decide

/-- Claim C4 (amended): isNewer parses each argument by taking the first
three dot-separated numeric groups found via pattern match (unparseable
versions collapsing to (0,0,0)) and compares the triples lexicographically,
except that an absent baseline — and, because of the JS falsy test, an
empty-string baseline — is treated as older than any candidate; the five
literal scenarios hold. -/
theorem isNewerVersion_lex_spec (c l : String) :
    (isNewerVersion c none = true)
    ∧ (isNewerVersion c (some "") = true)
    ∧ (l ≠ "" →
        (isNewerVersion c (some l) = true ↔
          specLexGt (parseVersion c) (parseVersion l)))
    ∧ (isNewerVersion "1.2.4" (some "1.2.3") = true
        ∧ isNewerVersion "1.3.0" (some "1.2.9") = true
        ∧ isNewerVersion "2.0.0" (some "1.9.9") = true
        ∧ isNewerVersion "1.2.3" (some "1.2.3") = false
        ∧ isNewerVersion "1.2.3" none = true) := by
  refine ⟨rfl, rfl, fun hl => ?_, by decide, by decide, by decide, by decide, rfl⟩
  simp only [isNewerVersion, if_neg hl, specLexGt]
  split_ifs with h1 h2 <;> simp_all

/-- Witness for C4: the amended lexicographic reading at the literal
scenario ("1.3.0", "1.2.9"), discharging the nonempty-baseline
hypothesis. -/
theorem isNewerVersion_lex_spec_witness :
    isNewerVersion "1.3.0" (some "1.2.9") = true ↔
    specLexGt (parseVersion "1.3.0") (parseVersion "1.2.9") :=
  (isNewerVersion_lex_spec "1.3.0" "1.2.9").2.2.1 (by decide)

/-- Batched settle-all execution over total processors is the plain map:
chunking into windows and concatenating the settled windows preserves the
per-item results and their order. -/
theorem processInBatches_eq_map_aux {α β : Type} (n : Nat) :
    ∀ (items : List α), items.length ≤ n → ∀ (proc : α → β) (c : Nat),
      processInBatches items proc c = items.map proc := by
  induction n with
  | zero =>
    intro items h proc c
    have : items = [] := List.eq_nil_of_length_eq_zero (Nat.le_zero.mp h)
    subst this
    rw [processInBatches]
    rfl
  | succ n ih =>
    intro items h proc c
    cases items with
    | nil => rw [processInBatches]; rfl
    | cons x xs =>
      have hlen : (xs.drop (c - 1)).length ≤ n := by
        simp only [List.length_drop]
        simp only [List.length_cons] at h
        omega
      rw [processInBatches, ih (xs.drop (c - 1)) hlen proc c,
        ← List.map_append, List.cons_append, List.take_append_drop]

theorem processInBatches_eq_map {α β : Type} (items : List α) (proc : α → β)
    (c : Nat) : processInBatches items proc c = items.map proc :=
  processInBatches_eq_map_aux items.length items le_rfl proc c

/-- The two outputs of sendNotificationToWorkspaces, in closed form: the
results are the per-workspace processor results in listing order, and the
attempted teamIds are those of the workspaces that reached
sendWorkspaceNotification. -/
theorem sendNotificationToWorkspaces_eq (workspaces : List Workspace)
    (message : SlackMessage) (summaries : List (Language × ChangeSummary))
    (sendOutcome : Workspace → Option String) :
    sendNotificationToWorkspaces workspaces message summaries sendOutcome =
      (workspaces.map (fun w => (notifyProcessor summaries sendOutcome w).1),
       (workspaces.filter
          (fun w => (notifyProcessor summaries sendOutcome w).2)).map
         (fun w => (notifyProcessor summaries sendOutcome w).1.workspace.teamId)) := by
  unfold sendNotificationToWorkspaces
  rw [processInBatches_eq_map]
  dsimp only
  rw [List.map_map]
  refine Prod.ext ?_ ?_
  · rw [List.map_map]
    rfl
  · simp only [List.filter_map, List.map_map]
    rfl

/-- The processor attempts delivery exactly when the workspace's language
has a pregenerated summary, and always reports the workspace it was given. -/
theorem notifyProcessor_spec (summaries : List (Language × ChangeSummary))
    (sendOutcome : Workspace → Option String) (w : Workspace) :
    (notifyProcessor summaries sendOutcome w).2 =
      (lookupLang summaries w.language).isSome ∧
    (notifyProcessor summaries sendOutcome w).1.workspace = w := by
  unfold notifyProcessor
  cases h : lookupLang summaries w.language with
  | none => simp
  | some s => cases hs : sendOutcome w <;> simp

/-- Claim C5: with a summary available for every recipient's language and a
delivery transport that throws exactly for the one recipient with teamId
`failId` (occurring once in the list), the fan-out returns one result per
recipient in order, exactly one marked failed — the failing recipient's —
and all others marked success; no failure short-circuits the rest, and the
fan-out itself is a total function (it never throws). -/
theorem sendToAll_fanout_isolation (ws : List Workspace) (msg : SlackMessage)
    (summaries : List (Language × ChangeSummary))
    (send : Workspace → Option String) (failId err : String)
    (hsum : ∀ w ∈ ws, (lookupLang summaries w.language).isSome = true)
    (hsend : ∀ w ∈ ws,
      send w = if w.teamId = failId then some err else none)
    (honce : (ws.filter (fun w => w.teamId = failId)).length = 1) :
    ((sendNotificationToWorkspaces ws msg summaries send).1.length = ws.length)
    ∧ ((sendNotificationToWorkspaces ws msg summaries send).1 =
        ws.map (fun w =>
          if w.teamId = failId then (⟨w, false, some err⟩ : NotificationResult)
          else ⟨w, true, none⟩))
    ∧ (((sendNotificationToWorkspaces ws msg summaries send).1.filter
          (fun r => !r.success)).length = 1)
    ∧ (∀ r ∈ (sendNotificationToWorkspaces ws msg summaries send).1,
        r.success = false → r.workspace.teamId = failId) := by
  have hres : (sendNotificationToWorkspaces ws msg summaries send).1 =
      ws.map (fun w =>
        if w.teamId = failId then (⟨w, false, some err⟩ : NotificationResult)
        else ⟨w, true, none⟩) := by
    rw [sendNotificationToWorkspaces_eq]
    refine List.map_congr_left (fun w hw => ?_)
    obtain ⟨s, hs⟩ := Option.isSome_iff_exists.mp (hsum w hw)
    unfold notifyProcessor
    rw [hs, hsend w hw]
    by_cases hid : w.teamId = failId <;> simp [hid]
  refine ⟨by rw [hres]; exact List.length_map _ _, hres, ?_, ?_⟩
  · rw [hres, List.filter_map]
    have hcongr : ws.filter
        ((fun (r : NotificationResult) => !r.success) ∘ fun w =>
          if w.teamId = failId then (⟨w, false, some err⟩ : NotificationResult)
          else ⟨w, true, none⟩) =
        ws.filter (fun w => w.teamId = failId) := by
      refine List.filter_congr (fun w _ => ?_)
      by_cases hid : w.teamId = failId <;> simp [hid]
    rw [hcongr, List.length_map, honce]
  · intro r hr hfail
    rw [hres] at hr
    obtain ⟨w, _, hw⟩ := List.mem_map.mp hr
    by_cases hid : w.teamId = failId
    · rw [if_pos hid] at hw
      rw [← hw]
      exact hid
    · rw [if_neg hid] at hw
      rw [← hw] at hfail
      simp at hfail

/-- Witness for C5: three recipients, the middle one ("T2") always throws;
three results, T2 failed, T1 and T3 delivered. -/
theorem sendToAll_fanout_isolation_witness :
    (sendNotificationToWorkspaces
        [⟨"T1", "W1", .en⟩, ⟨"T2", "W2", .en⟩, ⟨"T3", "W3", .en⟩]
        ⟨"1.0.0", englishSummary, "", ""⟩ [(.en, englishSummary)]
        (fun w => if w.teamId = "T2" then some "boom" else none)).1 =
      [⟨⟨"T1", "W1", .en⟩, true, none⟩,
       ⟨⟨"T2", "W2", .en⟩, false, some "boom"⟩,
       ⟨⟨"T3", "W3", .en⟩, true, none⟩] := by
  have h := sendToAll_fanout_isolation
    [⟨"T1", "W1", .en⟩, ⟨"T2", "W2", .en⟩, ⟨"T3", "W3", .en⟩]
    ⟨"1.0.0", englishSummary, "", ""⟩ [(.en, englishSummary)]
    (fun w => if w.teamId = "T2" then some "boom" else none) "T2" "boom"
    (by decide) (by decide) (by decide)
  rw [h.2.1]
  decide

/-- Claim C10: in the main fan-out phase no language fallback is applied —
a workspace whose preferred language has no entry in the pregenerated
mapping gets no delivery attempt and a failed result with error
"No summary for language: <language>", while the workspaces whose language
is available are the ones attempted. -/
theorem sendToAll_no_language_fallback (ws : List Workspace)
    (msg : SlackMessage) (summaries : List (Language × ChangeSummary))
    (send : Workspace → Option String) :
    ((sendNotificationToWorkspaces ws msg summaries send).1 =
        ws.map (fun w => (notifyProcessor summaries send w).1))
    ∧ ((sendNotificationToWorkspaces ws msg summaries send).2 =
        (ws.filter (fun w => (lookupLang summaries w.language).isSome)).map
          (fun w => w.teamId))
    ∧ (∀ w, lookupLang summaries w.language = none →
        notifyProcessor summaries send w =
          (⟨w, false,
            some ("No summary for language: " ++ languageCode w.language)⟩,
           false)) := by
  refine ⟨by rw [sendNotificationToWorkspaces_eq], ?_, fun w hw => ?_⟩
  · rw [sendNotificationToWorkspaces_eq]
    have hfilter : ws.filter (fun w => (notifyProcessor summaries send w).2) =
        ws.filter (fun w => (lookupLang summaries w.language).isSome) :=
      List.filter_congr (fun w _ => (notifyProcessor_spec summaries send w).1)
    rw [hfilter]
    exact List.map_congr_left
      (fun w _ => congrArg Workspace.teamId (notifyProcessor_spec summaries send w).2)
  · unfold notifyProcessor
    rw [hw]

/-- Witness for C10: with only an English summary pregenerated, a Korean
workspace gets no attempt and the literal missing-language error. -/
theorem sendToAll_no_language_fallback_witness :
    notifyProcessor [(.en, englishSummary)]
      (fun _ => none) ⟨"T2", "W2", .ko⟩ =
      (⟨⟨"T2", "W2", .ko⟩, false, some "No summary for language: ko"⟩,
       false) :=
  (sendToAll_no_language_fallback [⟨"T2", "W2", .ko⟩]
    ⟨"1.0.0", englishSummary, "", ""⟩ [(.en, englishSummary)]
    (fun _ => none)).2.2 ⟨"T2", "W2", .ko⟩ (by decide)

/-! #### Summary-cache lemmas -/

theorem lookupLang_append (a b : List (Language × ChangeSummary))
    (l : Language) :
    lookupLang (a ++ b) l =
      match lookupLang a l with
      | some x => some x
      | none => lookupLang b l := by
  induction a with
  | nil => rfl
  | cons p rest ih =>
    by_cases h : p.1 = l
    · simp [lookupLang, h]
    · simp only [List.cons_append, lookupLang, if_neg h]
      exact ih

/-- Each entry of the getAll result for one supported language: a valid
stored entry is kept in the store and reported, anything else (absent or
failing validation, hence deleted) is absent from both. -/
theorem getAll_char (st : SummaryStore) (v : String) (l : Language) :
    (∃ e, st v l = some e ∧ validateSummaryLanguage e l = true ∧
      (getAll st v).1 v l = some e ∧ lookupLang (getAll st v).2 l = some e)
    ∨ ((st v l = none ∨
        ∃ e, st v l = some e ∧ validateSummaryLanguage e l = false) ∧
       lookupLang (getAll st v).2 l = none ∧ (getAll st v).1 v l = none) := by
  unfold getAll SUPPORTED_LANGUAGES
  simp only [List.foldl]
  cases l <;>
    rcases h1 : st v Language.en with _ | e1 <;>
    rcases h2 : st v Language.ko with _ | e2
  all_goals try by_cases hv1 : validateSummaryLanguage e1 Language.en
  all_goals try by_cases hv2 : validateSummaryLanguage e2 Language.ko
  all_goals simp_all [getAllStep, storeDel, lookupLang]

/-- getAll touches no key outside its version. -/
theorem getAll_fst_frame (st : SummaryStore) (v v' : String) (l' : Language)
    (h : v' ≠ v) : (getAll st v).1 v' l' = st v' l' := by
  unfold getAll SUPPORTED_LANGUAGES
  simp only [List.foldl]
  rcases h1 : st v Language.en with _ | e1 <;>
    rcases h2 : st v Language.ko with _ | e2
  all_goals try by_cases hv1 : validateSummaryLanguage e1 Language.en
  all_goals try by_cases hv2 : validateSummaryLanguage e2 Language.ko
  all_goals simp_all [getAllStep, storeDel]

/-- getAll only ever deletes entries. -/
theorem getAll_fst_mono (st : SummaryStore) (v v' : String) (l' : Language) :
    (getAll st v).1 v' l' = st v' l' ∨ (getAll st v).1 v' l' = none := by
  unfold getAll SUPPORTED_LANGUAGES
  simp only [List.foldl]
  rcases h1 : st v Language.en with _ | e1 <;>
    rcases h2 : st v Language.ko with _ | e2
  all_goals try by_cases hv1 : validateSummaryLanguage e1 Language.en
  all_goals try by_cases hv2 : validateSummaryLanguage e2 Language.ko
  all_goals simp_all [getAllStep, storeDel]
  all_goals by_cases hv : v' = v <;> by_cases hl : l' = Language.en <;>
    by_cases hl2 : l' = Language.ko <;> simp_all

/-- The getAll read depends only on the store's entries at its version. -/
theorem getAll_snd_congr (st1 st2 : SummaryStore) (v : String)
    (h : ∀ l, st1 v l = st2 v l) : (getAll st1 v).2 = (getAll st2 v).2 := by
  unfold getAll SUPPORTED_LANGUAGES
  simp only [List.foldl]
  rcases h1 : st1 v Language.en with _ | e1 <;>
    rcases h2 : st1 v Language.ko with _ | e2
  all_goals try by_cases hv1 : validateSummaryLanguage e1 Language.en
  all_goals try by_cases hv2 : validateSummaryLanguage e2 Language.ko
  all_goals simp_all [getAllStep, storeDel, h]

/-- The generation fold calls the generator exactly once per missing
language, in order, regardless of outcomes. -/
theorem pregenFold_calls (v : String) (gen : Language → Option ChangeSummary) :
    ∀ (ms : List Language)
      (acc : SummaryStore × List (Language × ChangeSummary) × List Language),
      (ms.foldl (pregenStep v gen) acc).2.2 = acc.2.2 ++ ms := by
  intro ms
  induction ms with
  | nil => intro acc; simp
  | cons l rest ih =>
    intro acc
    rw [List.foldl_cons, ih]
    have hstep : (pregenStep v gen acc l).2.2 = acc.2.2 ++ [l] := by
      unfold pregenStep
      cases gen l
      · rfl
      · dsimp only
        split_ifs <;> rfl
    rw [hstep, List.append_assoc]
    rfl

/-- pregenerate calls the generator on a duplicate-free set of languages. -/
theorem pregenerate_calls_nodup (st : SummaryStore) (v : String)
    (gen : Language → Option ChangeSummary) :
    (pregenerate st v gen).2.2.Nodup := by
  unfold pregenerate
  dsimp only
  split
  · exact List.nodup_nil
  · rw [pregenFold_calls]
    simp only [List.nil_append]
    exact List.Nodup.filter _ (by decide)

/-- When every supported language has a valid cached entry, pregenerate is
fully cache-served: no generator call, and the result mapping returns the
stored entries. -/
theorem pregenerate_of_healthy (st : SummaryStore) (v : String)
    (gen : Language → Option ChangeSummary)
    (h : ∀ l, ∃ s, st v l = some s ∧ validateSummaryLanguage s l = true) :
    (pregenerate st v gen).2.2 = [] ∧
    ∀ l, lookupLang (pregenerate st v gen).2.1 l = st v l := by
  obtain ⟨se, hse, hve⟩ := h .en
  obtain ⟨sk, hsk, hvk⟩ := h .ko
  unfold pregenerate getAll SUPPORTED_LANGUAGES
  simp only [List.foldl]
  simp only [getAllStep, hse, hsk, hve, if_true, hvk]
  simp only [List.nil_append, lookupLang, List.filter]
  refine ⟨?_, fun l => ?_⟩
  · simp [lookupLang]
  · cases l <;> simp [lookupLang, hse, hsk]

/-- After one pregenerate call with a working generator, every supported
language has a valid entry in the store and appears in the result
mapping. -/
theorem pregenerate_establishes (st : SummaryStore) (v : String)
    (gen : Language → Option ChangeSummary)
    (hgen : ∀ l, ∃ s, gen l = some s ∧ hasSubstantialContent s = true ∧
      validateSummaryLanguage s l = true) :
    ∀ l, ∃ s, (pregenerate st v gen).1 v l = some s ∧
      validateSummaryLanguage s l = true ∧
      lookupLang (pregenerate st v gen).2.1 l = some s := by
  obtain ⟨ge, hge, hce, hve⟩ := hgen .en
  obtain ⟨gk, hgk, hck, hvk⟩ := hgen .ko
  unfold pregenerate
  dsimp only
  rcases getAll_char st v .en with ⟨e, _, hvee, hfe, hle⟩ | ⟨_, hle, hfe⟩ <;>
    rcases getAll_char st v .ko with ⟨k, _, hvkk, hfk, hlk⟩ | ⟨_, hlk, hfk⟩
  · -- both languages cached and valid: fully served from getAll
    simp only [SUPPORTED_LANGUAGES, List.filter, hle, hlk, Option.isNone_some,
      List.isEmpty_nil, if_true]
    intro l
    cases l
    · exact ⟨e, hfe, hvee, hle⟩
    · exact ⟨k, hfk, hvkk, hlk⟩
  · -- en cached, ko generated
    simp only [SUPPORTED_LANGUAGES, List.filter, hle, hlk, Option.isNone_some,
      Option.isNone_none]
    simp only [List.isEmpty_cons, if_false, List.foldl_cons, List.foldl_nil]
    unfold pregenStep
    rw [hgk]
    dsimp only
    rw [if_pos hvk]
    unfold SummaryCache.set
    rw [hck, hvk]
    simp only [Bool.not_true, Bool.false_eq_true, if_false]
    intro l
    cases l
    · refine ⟨e, ?_, hvee, ?_⟩
      · simp [storePut, hfe]
      · rw [lookupLang_append, hle]
    · refine ⟨gk, ?_, hvk, ?_⟩
      · simp [storePut]
      · rw [lookupLang_append, hlk]
        simp [lookupLang]
  · -- ko cached, en generated
    simp only [SUPPORTED_LANGUAGES, List.filter, hle, hlk, Option.isNone_some,
      Option.isNone_none]
    simp only [List.isEmpty_cons, if_false, List.foldl_cons, List.foldl_nil]
    unfold pregenStep
    rw [hge]
    dsimp only
    rw [if_pos hve]
    unfold SummaryCache.set
    rw [hce, hve]
    simp only [Bool.not_true, Bool.false_eq_true, if_false]
    intro l
    cases l
    · refine ⟨ge, ?_, hve, ?_⟩
      · simp [storePut]
      · rw [lookupLang_append, hle]
        simp [lookupLang]
    · refine ⟨k, ?_, hvkk, ?_⟩
      · simp [storePut, hfk]
      · rw [lookupLang_append, hlk]
  · -- both generated
    simp only [SUPPORTED_LANGUAGES, List.filter, hle, hlk, Option.isNone_none]
    simp only [List.isEmpty_cons, if_false, List.foldl_cons, List.foldl_nil]
    unfold pregenStep
    rw [hge]
    dsimp only
    rw [if_pos hve]
    unfold SummaryCache.set
    rw [hce, hve]
    simp only [Bool.not_true, Bool.false_eq_true, if_false]
    rw [hgk]
    dsimp only
    rw [if_pos hvk]
    rw [hck, hvk]
    simp only [Bool.not_true, Bool.false_eq_true, if_false]
    intro l
    cases l
    · refine ⟨ge, ?_, hve, ?_⟩
      · simp [storePut]
      · rw [lookupLang_append, lookupLang_append, hle]
        simp [lookupLang]
    · refine ⟨gk, ?_, hvk, ?_⟩
      · simp [storePut]
      · rw [lookupLang_append, lookupLang_append, hlk]
        simp [lookupLang]

/-- Claim C3: with a working generator (a valid, substantial summary for
every supported language), a second pregenerate for the same version is
fully cache-served — both calls return equal result mappings, and across
the two calls the generator runs at most once per (version, language)
pair. -/
theorem pregenerate_idempotent (st : SummaryStore) (v : String)
    (gen : Language → Option ChangeSummary)
    (hgen : ∀ l, ∃ s, gen l = some s ∧ hasSubstantialContent s = true ∧
      validateSummaryLanguage s l = true) :
    (∀ l, lookupLang (pregenerate (pregenerate st v gen).1 v gen).2.1 l =
        lookupLang (pregenerate st v gen).2.1 l)
    ∧ (pregenerate (pregenerate st v gen).1 v gen).2.2 = []
    ∧ (∀ l, ((pregenerate st v gen).2.2 ++
        (pregenerate (pregenerate st v gen).1 v gen).2.2).count l ≤ 1) := by
  have hest := pregenerate_establishes st v gen hgen
  have hhealthy : ∀ l, ∃ s, (pregenerate st v gen).1 v l = some s ∧
      validateSummaryLanguage s l = true :=
    fun l => (hest l).imp (fun s hs => ⟨hs.1, hs.2.1⟩)
  have h2 := pregenerate_of_healthy (pregenerate st v gen).1 v gen hhealthy
  refine ⟨fun l => ?_, h2.1, fun l => ?_⟩
  · obtain ⟨s, hf, _, hl⟩ := hest l
    rw [h2.2 l, hf, hl]
  · rw [List.count_append, h2.1]
    simp only [List.count_nil, Nat.add_zero]
    exact List.nodup_iff_count_le_one.mp (pregenerate_calls_nodup st v gen) l

/-- Witness for C3: two pregenerate calls for version 1.0.0 on an empty
cache with a concrete working generator; the second call makes no
generator call and agrees with the first on both languages. -/
theorem pregenerate_idempotent_witness :
    (pregenerate (pregenerate emptySummaryStore "1.0.0" demoGen).1
        "1.0.0" demoGen).2.2 = []
    ∧ (∀ l, lookupLang (pregenerate (pregenerate emptySummaryStore "1.0.0"
        demoGen).1 "1.0.0" demoGen).2.1 l =
        lookupLang (pregenerate emptySummaryStore "1.0.0" demoGen).2.1 l) := by
  have h := pregenerate_idempotent emptySummaryStore "1.0.0" demoGen
    (fun l => by
      cases l
      · exact ⟨englishSummary, rfl, by decide, by decide⟩
      · exact ⟨koreanSummary, rfl, by decide, by decide⟩)
  exact ⟨h.2.1, h.1⟩

/-- Claim C6: a failure generating one language does not abort the others
and pregenerate never throws for partial failure — with gen("en")
succeeding and gen("ko") throwing on an empty cache, the result mapping
contains only "en" (pregenerate is a total function, so no exception can
propagate; the source catches each generation failure per language). -/
theorem pregenerate_partial_failure (st : SummaryStore) (v : String)
    (gen : Language → Option ChangeSummary) (s : ChangeSummary)
    (hen : gen .en = some s) (hko : gen .ko = none)
    (hse : st v .en = none) (hsk : st v .ko = none) :
    lookupLang (pregenerate st v gen).2.1 .en = some s ∧
    lookupLang (pregenerate st v gen).2.1 .ko = none ∧
    (pregenerate st v gen).2.2 = [.en, .ko] := by
  unfold pregenerate getAll SUPPORTED_LANGUAGES
  simp only [List.foldl]
  simp only [getAllStep, hse, hsk]
  simp only [List.filter, lookupLang, Option.isNone_none, List.isEmpty_cons,
    if_false, List.foldl_cons, List.foldl_nil]
  unfold pregenStep
  rw [hen, hko]
  dsimp only
  have hvs : validateSummaryLanguage s .en = true := rfl
  rw [if_pos hvs]
  simp [lookupLang]

/-- Witness for C6: the literal scenario pregenerate("v1.0.0", gen) with a
generator that succeeds in English and throws in Korean, on an empty
cache. -/
theorem pregenerate_partial_failure_witness :
    lookupLang (pregenerate emptySummaryStore "v1.0.0" partialGen).2.1 .en =
      some englishSummary ∧
    lookupLang (pregenerate emptySummaryStore "v1.0.0" partialGen).2.1 .ko =
      none :=
  have h := pregenerate_partial_failure emptySummaryStore "v1.0.0" partialGen
    englishSummary rfl rfl rfl rfl
  ⟨h.1, h.2.1⟩

/-! #### Failure-store lemmas -/

theorem removeF_cons_self (r : FailedNotification)
    (rest : List FailedNotification) (id : String) (hr : r.teamId = id) :
    removeF (r :: rest) id = removeF rest id := by
  simp [removeF, List.filter_cons, hr]

theorem removeF_cons_ne (r : FailedNotification)
    (rest : List FailedNotification) (id : String) (hr : r.teamId ≠ id) :
    removeF (r :: rest) id = r :: removeF rest id := by
  simp [removeF, List.filter_cons, hr]

theorem lookupF_removeF (st : List FailedNotification) (id x : String) :
    lookupF (removeF st id) x = if x = id then none else lookupF st x := by
  induction st with
  | nil => simp [removeF, lookupF]
  | cons r rest ih =>
    by_cases hr : r.teamId = id
    · rw [removeF_cons_self r rest id hr, ih]
      by_cases hx : x = id
      · simp [hx]
      · have hrx : r.teamId ≠ x := by
          rw [hr]
          exact fun hh => hx hh.symm
        simp [hx, lookupF, hrx]
    · rw [removeF_cons_ne r rest id hr]
      by_cases hxr : r.teamId = x
      · have hx : x ≠ id := fun hh => hr (hxr.trans hh)
        simp [lookupF, hxr, hx]
      · simp [lookupF, hxr, ih]

theorem lookupF_append (a b : List FailedNotification) (x : String) :
    lookupF (a ++ b) x =
      match lookupF a x with
      | some r => some r
      | none => lookupF b x := by
  induction a with
  | nil => rfl
  | cons r rest ih =>
    by_cases h : r.teamId = x
    · simp [lookupF, h]
    · simp only [List.cons_append, lookupF, if_neg h]
      exact ih

theorem lookupF_addF (st : List FailedNotification)
    (rec : FailedNotification) (x : String) :
    lookupF (addF st rec) x =
      if x = rec.teamId then some rec else lookupF st x := by
  unfold addF
  rw [lookupF_append, lookupF_removeF]
  by_cases h : x = rec.teamId
  · simp [lookupF, h]
  · rcases hst : lookupF st x with _ | r
    · have : rec.teamId ≠ x := fun hh => h hh.symm
      simp [lookupF, h, this]
    · simp [h]

theorem lookupF_of_mem (st : List FailedNotification)
    (r : FailedNotification)
    (hnodup : (st.map (fun f => f.teamId)).Nodup) (hr : r ∈ st) :
    lookupF st r.teamId = some r := by
  induction st with
  | nil => cases hr
  | cons s rest ih =>
    simp only [List.map_cons, List.nodup_cons] at hnodup
    rcases List.mem_cons.mp hr with rfl | hmem
    · simp [lookupF]
    · have hne : s.teamId ≠ r.teamId := by
        intro h
        exact hnodup.1 (h ▸ List.mem_map_of_mem (fun f => f.teamId) hmem)
      simp only [lookupF, if_neg hne]
      exact ih hnodup.2 hmem

theorem removeFold_lookup (fs : List FailedNotification)
    (st : List FailedNotification) (x : String) :
    lookupF (fs.foldl (fun s f => removeF s f.teamId) st) x =
      if x ∈ fs.map (fun f => f.teamId) then none else lookupF st x := by
  induction fs generalizing st with
  | nil => simp
  | cons f rest ih =>
    rw [List.foldl_cons, ih]
    by_cases hrest : x ∈ rest.map (fun f => f.teamId)
    · simp [hrest]
    · by_cases hx : x = f.teamId
      · simp [hrest, hx, lookupF_removeF]
      · simp [hrest, hx, lookupF_removeF]

/-! #### Retry-phase frame lemmas -/

theorem processFailure_cache (ws : List Workspace)
    (sm : List (Language × ChangeSummary)) (send : Workspace → Option String)
    (now : String) (st : RetryState) (f : FailedNotification) :
    (processFailure ws sm send now st f).cache = st.cache := by
  unfold processFailure
  repeat' split <;> try rfl
  all_goals
    dsimp only
    split <;> rfl

theorem processFailure_frame (ws : List Workspace)
    (sm : List (Language × ChangeSummary)) (send : Workspace → Option String)
    (now : String) (st : RetryState) (f : FailedNotification) (x : String)
    (h : f.teamId ≠ x) :
    lookupF (processFailure ws sm send now st f).failed x =
      lookupF st.failed x ∧
    (x ∈ (processFailure ws sm send now st f).attempts ↔
      x ∈ st.attempts) := by
  have hx : x ≠ f.teamId := fun hh => h hh.symm
  unfold processFailure
  repeat' split <;>
    try simp [lookupF_removeF, lookupF_addF, hx, List.mem_append]

theorem pfFold_cache (ws : List Workspace)
    (sm : List (Language × ChangeSummary)) (send : Workspace → Option String)
    (now : String) (fs : List FailedNotification) (st : RetryState) :
    (fs.foldl (processFailure ws sm send now) st).cache = st.cache := by
  induction fs generalizing st with
  | nil => rfl
  | cons f rest ih =>
    rw [List.foldl_cons, ih, processFailure_cache]

theorem pfFold_frame (ws : List Workspace)
    (sm : List (Language × ChangeSummary)) (send : Workspace → Option String)
    (now : String) (fs : List FailedNotification) (st : RetryState)
    (x : String) (h : ∀ f ∈ fs, f.teamId ≠ x) :
    lookupF (fs.foldl (processFailure ws sm send now) st).failed x =
      lookupF st.failed x ∧
    (x ∈ (fs.foldl (processFailure ws sm send now) st).attempts ↔
      x ∈ st.attempts) := by
  induction fs generalizing st with
  | nil => simp
  | cons f rest ih =>
    rw [List.foldl_cons]
    have hf := processFailure_frame ws sm send now st f x
      (h f (List.mem_cons_self f rest))
    have hrest := ih (processFailure ws sm send now st f)
      (fun g hg => h g (List.mem_cons_of_mem f hg))
    exact ⟨hrest.1.trans hf.1, hrest.2.trans hf.2⟩

theorem processGroup_frame (ws : List Workspace)
    (send : Workspace → Option String) (now : String) (st : RetryState)
    (g : String × List FailedNotification) (x : String)
    (h : ∀ f ∈ g.2, f.teamId ≠ x) :
    lookupF (processGroup ws send now st g).failed x =
      lookupF st.failed x ∧
    (x ∈ (processGroup ws send now st g).attempts ↔ x ∈ st.attempts) := by
  unfold processGroup
  dsimp only
  split
  · constructor
    · dsimp only
      rw [removeFold_lookup]
      have : x ∉ g.2.map (fun f => f.teamId) := by
        intro hmem
        obtain ⟨f, hf, hfx⟩ := List.mem_map.mp hmem
        exact h f hf hfx
      rw [if_neg this]
    · simp
  · exact pfFold_frame ws (getAll st.cache g.1).2 send now g.2
      { st with cache := (getAll st.cache g.1).1 } x h

theorem processGroup_cache (ws : List Workspace)
    (send : Workspace → Option String) (now : String) (st : RetryState)
    (g : String × List FailedNotification) (v' : String) (l' : Language)
    (h : v' ≠ g.1) :
    (processGroup ws send now st g).cache v' l' = st.cache v' l' := by
  unfold processGroup
  dsimp only
  split
  · dsimp only
    exact getAll_fst_frame st.cache g.1 v' l' h
  · rw [pfFold_cache]
    exact getAll_fst_frame st.cache g.1 v' l' h

theorem pgFold_frame (ws : List Workspace)
    (send : Workspace → Option String) (now : String)
    (gs : List (String × List FailedNotification)) (st : RetryState)
    (x : String) (h : ∀ g ∈ gs, ∀ f ∈ g.2, f.teamId ≠ x) :
    lookupF (gs.foldl (processGroup ws send now) st).failed x =
      lookupF st.failed x ∧
    (x ∈ (gs.foldl (processGroup ws send now) st).attempts ↔
      x ∈ st.attempts) := by
  induction gs generalizing st with
  | nil => simp
  | cons g rest ih =>
    rw [List.foldl_cons]
    have hg := processGroup_frame ws send now st g x
      (h g (List.mem_cons_self g rest))
    have hrest := ih (processGroup ws send now st g)
      (fun g' hg' => h g' (List.mem_cons_of_mem g hg'))
    exact ⟨hrest.1.trans hg.1, hrest.2.trans hg.2⟩

theorem pgFold_cache (ws : List Workspace)
    (send : Workspace → Option String) (now : String)
    (gs : List (String × List FailedNotification)) (st : RetryState)
    (v' : String) (l' : Language) (h : ∀ g ∈ gs, v' ≠ g.1) :
    (gs.foldl (processGroup ws send now) st).cache v' l' =
      st.cache v' l' := by
  induction gs generalizing st with
  | nil => rfl
  | cons g rest ih =>
    rw [List.foldl_cons]
    rw [ih (processGroup ws send now st g)
      (fun g' hg' => h g' (List.mem_cons_of_mem g hg'))]
    exact processGroup_cache ws send now st g v' l'
      (h g (List.mem_cons_self g rest))

theorem versionsInOrder_mem_aux (fs : List FailedNotification) :
    ∀ (acc : List String) (v : String),
      (v ∈ fs.foldl
        (fun acc f => if f.version ∈ acc then acc else acc ++ [f.version])
        acc) ↔
      (v ∈ acc ∨ v ∈ fs.map (fun f => f.version)) := by
  induction fs with
  | nil => simp
  | cons f rest ih =>
    intro acc v
    rw [List.foldl_cons, ih]
    by_cases hf : f.version ∈ acc
    · simp only [if_pos hf, List.map_cons, List.mem_cons]
      constructor
      · rintro (h | h)
        · exact Or.inl h
        · exact Or.inr (Or.inr h)
      · rintro (h | rfl | h)
        · exact Or.inl h
        · exact Or.inl hf
        · exact Or.inr h
    · simp only [if_neg hf, List.mem_append, List.mem_singleton,
        List.map_cons, List.mem_cons]
      tauto

theorem versionsInOrder_mem (fs : List FailedNotification) (v : String) :
    v ∈ versionsInOrder fs ↔ v ∈ fs.map (fun f => f.version) := by
  unfold versionsInOrder
  rw [versionsInOrder_mem_aux]
  simp

theorem versionsInOrder_nodup_aux (fs : List FailedNotification) :
    ∀ (acc : List String), acc.Nodup →
      (fs.foldl
        (fun acc f => if f.version ∈ acc then acc else acc ++ [f.version])
        acc).Nodup := by
  induction fs with
  | nil => exact fun acc h => h
  | cons f rest ih =>
    intro acc hacc
    rw [List.foldl_cons]
    by_cases hf : f.version ∈ acc
    · rw [if_pos hf]
      exact ih acc hacc
    · rw [if_neg hf]
      refine ih _ ?_
      simp [List.nodup_append, hacc, hf]

theorem versionsInOrder_nodup (fs : List FailedNotification) :
    (versionsInOrder fs).Nodup :=
  versionsInOrder_nodup_aux fs [] List.nodup_nil

/-- Reduction of the retry phase around one record `r` of the snapshot:
the phase equals the fold of the groups after r's group, applied to the
processing of r's group, applied to a prefix state `pre` in which r is
still stored, unattempted, and whose cache reads at r.version as the
original cache; all records other than r carry a different teamId. -/
theorem retryPhase_reduce (store : List FailedNotification)
    (ws : List Workspace) (cache : SummaryStore)
    (send : Workspace → Option String) (now : String)
    (r : FailedNotification)
    (hnodup : (store.map (fun f => f.teamId)).Nodup) (hr : r ∈ store) :
    ∃ (l₁ l₂ : List FailedNotification)
      (gs₂ : List (String × List FailedNotification)) (pre : RetryState),
      (∀ f ∈ l₁, f.teamId ≠ r.teamId) ∧
      (∀ f ∈ l₂, f.teamId ≠ r.teamId) ∧
      (∀ g ∈ gs₂, ∀ f ∈ g.2, f.teamId ≠ r.teamId) ∧
      lookupF pre.failed r.teamId = some r ∧
      r.teamId ∉ pre.attempts ∧
      (getAll pre.cache r.version).2 = (getAll cache r.version).2 ∧
      retryPreviouslyFailedNotifications store ws cache send now =
        gs₂.foldl (processGroup ws send now)
          (processGroup ws send now pre (r.version, l₁ ++ r :: l₂)) := by
  have hinj := List.inj_on_of_nodup_map hnodup
  have hne : store ≠ [] := List.ne_nil_of_mem hr
  have hvio_mem : r.version ∈ versionsInOrder store :=
    (versionsInOrder_mem store r.version).mpr
      (List.mem_map_of_mem (fun f => f.version) hr)
  obtain ⟨vs₁, vs₂, hsplit⟩ := List.append_of_mem hvio_mem
  have hvio_nodup := versionsInOrder_nodup store
  rw [hsplit] at hvio_nodup
  rw [List.nodup_append] at hvio_nodup
  have hrv₂ : r.version ∉ vs₂ := (List.nodup_cons.mp hvio_nodup.2.1).1
  have hrv₁ : r.version ∉ vs₁ := fun hmem =>
    hvio_nodup.2.2 hmem (List.mem_cons_self _ _)
  have hrfsv : r ∈ store.filter (fun f => f.version = r.version) :=
    List.mem_filter.mpr ⟨hr, by simp⟩
  obtain ⟨l₁, l₂, hfsv_split⟩ := List.append_of_mem hrfsv
  have hfsv_nodup :
      ((store.filter (fun f => f.version = r.version)).map
        (fun f => f.teamId)).Nodup :=
    hnodup.sublist
      (List.Sublist.map (fun f => f.teamId)
        (List.filter_sublist store))
  rw [hfsv_split, List.map_append, List.map_cons, List.nodup_append]
    at hfsv_nodup
  have hl₂ : ∀ f ∈ l₂, f.teamId ≠ r.teamId := by
    intro f hf heq
    exact (List.nodup_cons.mp hfsv_nodup.2.1).1
      (heq ▸ List.mem_map_of_mem (fun f => f.teamId) hf)
  have hl₁ : ∀ f ∈ l₁, f.teamId ≠ r.teamId := by
    intro f hf heq
    exact hfsv_nodup.2.2
      (List.mem_map_of_mem (fun f => f.teamId) hf)
      (heq ▸ List.mem_cons_self _ _)
  have hother : ∀ v, v ≠ r.version →
      ∀ f ∈ store.filter (fun f => f.version = v), f.teamId ≠ r.teamId := by
    intro v hv f hf heq
    have hfs := List.mem_filter.mp hf
    have : f = r := hinj hfs.1 hr heq
    subst this
    exact hv (Eq.symm (by simpa using hfs.2))
  have hgs₁ : ∀ g ∈ vs₁.map
      (fun v => (v, store.filter (fun f => f.version = v))),
      ∀ f ∈ g.2, f.teamId ≠ r.teamId := by
    intro g hg f hf
    obtain ⟨v, hv, rfl⟩ := List.mem_map.mp hg
    exact hother v (fun hh => hrv₁ (hh ▸ hv)) f hf
  have hgs₂ : ∀ g ∈ vs₂.map
      (fun v => (v, store.filter (fun f => f.version = v))),
      ∀ f ∈ g.2, f.teamId ≠ r.teamId := by
    intro g hg f hf
    obtain ⟨v, hv, rfl⟩ := List.mem_map.mp hg
    exact hother v (fun hh => hrv₂ (hh ▸ hv)) f hf
  have hpre := pgFold_frame ws send now
    (vs₁.map (fun v => (v, store.filter (fun f => f.version = v))))
    ⟨store, cache, []⟩ r.teamId hgs₁
  have hprecache : ∀ l,
      ((vs₁.map (fun v => (v, store.filter (fun f => f.version = v)))).foldl
        (processGroup ws send now) ⟨store, cache, []⟩).cache r.version l =
      cache r.version l := by
    intro l
    exact pgFold_cache ws send now _ ⟨store, cache, []⟩ r.version l
      (by
        intro g hg
        obtain ⟨v, hv, rfl⟩ := List.mem_map.mp hg
        exact fun hh => hrv₁ (hh ▸ hv))
  refine ⟨l₁, l₂,
    vs₂.map (fun v => (v, store.filter (fun f => f.version = v))),
    (vs₁.map (fun v => (v, store.filter (fun f => f.version = v)))).foldl
      (processGroup ws send now) ⟨store, cache, []⟩,
    hl₁, hl₂, hgs₂, ?_, ?_, ?_, ?_⟩
  · rw [hpre.1]
    exact lookupF_of_mem store r hnodup hr
  · intro hmem
    exact (List.not_mem_nil r.teamId) (hpre.2.mp hmem)
  · exact getAll_snd_congr _ cache r.version hprecache
  · unfold retryPreviouslyFailedNotifications
    rw [if_neg (by simpa [List.isEmpty_iff] using hne)]
    unfold groupByVersion
    rw [hsplit, List.map_append, List.map_cons, List.foldl_append,
      List.foldl_cons, hfsv_split]

/-- A record at or past MAX_RETRIES is removed with no delivery attempt
(src/workers/notify-all.ts lines 532-538). -/
theorem processFailure_maxed (ws : List Workspace)
    (sm : List (Language × ChangeSummary)) (send : Workspace → Option String)
    (now : String) (st : RetryState) (f : FailedNotification)
    (h : MAX_RETRIES ≤ f.retryCount) :
    processFailure ws sm send now st f =
      { st with failed := removeF st.failed f.teamId } := by
  unfold processFailure
  rw [if_pos h]

/-- A failed retry for an active workspace with summaries available
rewrites the record with retryCount + 1, the fresh timestamp, and the new
error as reason (src/workers/notify-all.ts lines 576-585). -/
theorem processFailure_failing (ws : List Workspace)
    (sm : List (Language × ChangeSummary)) (send : Workspace → Option String)
    (now : String) (st : RetryState) (f : FailedNotification)
    (w : Workspace) (e : String)
    (hcount : f.retryCount < MAX_RETRIES)
    (hws : wsLookup ws f.teamId = some w)
    (hsm : sm ≠ []) (hsend : send w = some e) :
    processFailure ws sm send now st f =
      { st with
          failed := addF st.failed
            { f with retryCount := f.retryCount + 1, timestamp := now,
                     reason := e },
          attempts := st.attempts ++ [f.teamId] } := by
  unfold processFailure
  rw [if_neg (by omega), hws]
  dsimp only
  rcases hlk : lookupLang sm w.language with _ | s
  · rcases sm with _ | ⟨p, rest⟩
    · exact absurd rfl hsm
    · simp [hsend]
  · simp [hsend]

/-- Every record the main-phase failure loop writes starts at
retryCount 0: a key is either untouched or holds a retryCount-0 record
afterwards. -/
theorem recordFailures_zero (st : List FailedNotification)
    (results : List NotificationResult) (version now' id : String) :
    lookupF (recordFailures st results version now') id = lookupF st id ∨
    ∃ rec, lookupF (recordFailures st results version now') id = some rec ∧
      rec.retryCount = 0 := by
  unfold recordFailures
  generalize results.filter (fun r => !r.success) = fl
  induction fl generalizing st with
  | nil => exact Or.inl rfl
  | cons r rest ih =>
    rw [List.foldl_cons]
    rcases ih (addF st
      { teamId := r.workspace.teamId, version := version,
        reason := r.error.getD "Unknown error", timestamp := now',
        retryCount := 0 }) with h | h
    · rw [h, lookupF_addF]
      by_cases hid : id = r.workspace.teamId
      · exact Or.inr ⟨_, by rw [if_pos hid], rfl⟩
      · rw [if_neg hid]
        exact Or.inl rfl
    · exact Or.inr h

/-- Claim C2: retryCount starts at 0 when a failure is first recorded,
a failed retry rewrites the record with retryCount + 1, and a record at
retryCount ≥ 3 seen by the retry phase is removed without a delivery
attempt for that recipient. -/
theorem failureTracker_bounded_retry (store : List FailedNotification)
    (ws : List Workspace) (cache : SummaryStore)
    (send : Workspace → Option String) (now : String)
    (r : FailedNotification)
    (hnodup : (store.map (fun f => f.teamId)).Nodup) (hr : r ∈ store) :
    (MAX_RETRIES ≤ r.retryCount →
      lookupF (retryPreviouslyFailedNotifications store ws cache send
        now).failed r.teamId = none ∧
      r.teamId ∉ (retryPreviouslyFailedNotifications store ws cache send
        now).attempts)
    ∧ (∀ w e, r.retryCount < MAX_RETRIES →
        wsLookup ws r.teamId = some w →
        (getAll cache r.version).2 ≠ [] → send w = some e →
        lookupF (retryPreviouslyFailedNotifications store ws cache send
          now).failed r.teamId =
          some { r with retryCount := r.retryCount + 1, timestamp := now,
                        reason := e } ∧
        r.teamId ∈ (retryPreviouslyFailedNotifications store ws cache send
          now).attempts)
    ∧ (∀ (st : List FailedNotification) (results : List NotificationResult)
        (version now' id : String),
        lookupF (recordFailures st results version now') id =
          lookupF st id ∨
        ∃ rec, lookupF (recordFailures st results version now') id =
          some rec ∧ rec.retryCount = 0) := by
  obtain ⟨l₁, l₂, gs₂, pre, hl₁, hl₂, hgs₂, hpreL, hpreA, hpreC, hphase⟩ :=
    retryPhase_reduce store ws cache send now r hnodup hr
  refine ⟨fun hmax => ?_, fun w e hcount hws hsm hsend => ?_,
    fun st results version now' id =>
      recordFailures_zero st results version now' id⟩
  · rw [hphase]
    by_cases hempty : (getAll cache r.version).2 = []
    · have hbranch : processGroup ws send now pre (r.version, l₁ ++ r :: l₂) =
          { failed := (l₁ ++ r :: l₂).foldl
              (fun s f => removeF s f.teamId) pre.failed,
            cache := (getAll pre.cache r.version).1,
            attempts := pre.attempts } := by
        unfold processGroup
        dsimp only
        rw [if_pos (by rw [hpreC, hempty]; rfl)]
      rw [hbranch]
      constructor
      · rw [(pgFold_frame ws send now gs₂ _ r.teamId hgs₂).1]
        dsimp only
        rw [removeFold_lookup]
        rw [if_pos (by simp)]
      · rw [(pgFold_frame ws send now gs₂ _ r.teamId hgs₂).2]
        dsimp only
        exact hpreA
    · have hbranch : processGroup ws send now pre (r.version, l₁ ++ r :: l₂) =
          l₂.foldl (processFailure ws (getAll pre.cache r.version).2 send now)
            (processFailure ws (getAll pre.cache r.version).2 send now
              (l₁.foldl
                (processFailure ws (getAll pre.cache r.version).2 send now)
                { pre with cache := (getAll pre.cache r.version).1 }) r) := by
        unfold processGroup
        dsimp only
        rw [if_neg (by rw [hpreC]; simpa [List.isEmpty_iff] using hempty)]
        rw [List.foldl_append, List.foldl_cons]
      rw [hbranch]
      rw [processFailure_maxed ws (getAll pre.cache r.version).2 send now _ r
        hmax]
      constructor
      · rw [(pgFold_frame ws send now gs₂ _ r.teamId hgs₂).1,
          (pfFold_frame ws (getAll pre.cache r.version).2 send now l₂ _
            r.teamId hl₂).1]
        dsimp only
        rw [lookupF_removeF, if_pos rfl]
      · rw [(pgFold_frame ws send now gs₂ _ r.teamId hgs₂).2,
          (pfFold_frame ws (getAll pre.cache r.version).2 send now l₂ _
            r.teamId hl₂).2]
        dsimp only
        rw [(pfFold_frame ws (getAll pre.cache r.version).2 send now l₁ _
          r.teamId hl₁).2]
        dsimp only
        exact hpreA
  · rw [hphase]
    have hbranch : processGroup ws send now pre (r.version, l₁ ++ r :: l₂) =
        l₂.foldl (processFailure ws (getAll pre.cache r.version).2 send now)
          (processFailure ws (getAll pre.cache r.version).2 send now
            (l₁.foldl
              (processFailure ws (getAll pre.cache r.version).2 send now)
              { pre with cache := (getAll pre.cache r.version).1 }) r) := by
      unfold processGroup
      dsimp only
      rw [if_neg (by rw [hpreC]; simpa [List.isEmpty_iff] using hsm)]
      rw [List.foldl_append, List.foldl_cons]
    rw [hbranch]
    rw [processFailure_failing ws (getAll pre.cache r.version).2 send now _ r
      w e hcount hws (by rw [hpreC]; exact hsm) hsend]
    constructor
    · rw [(pgFold_frame ws send now gs₂ _ r.teamId hgs₂).1,
        (pfFold_frame ws (getAll pre.cache r.version).2 send now l₂ _
          r.teamId hl₂).1]
      dsimp only
      rw [lookupF_addF]
      rw [if_pos rfl]
    · rw [(pgFold_frame ws send now gs₂ _ r.teamId hgs₂).2,
        (pfFold_frame ws (getAll pre.cache r.version).2 send now l₂ _
          r.teamId hl₂).2]
      dsimp only
      simp

/-- Witness for C2: the record at retryCount 2 that fails its retry is
rewritten at retryCount 3 with the new reason and timestamp; the next pass
removes it and makes no attempt for T1. -/
theorem failureTracker_bounded_retry_witness :
    (lookupF (retryPreviouslyFailedNotifications [failedT1] demoWorkspaces
        demoCache failingSend "t1").failed "T1" =
      some ⟨"T1", "1.0.0", "boom", "t1", 3⟩)
    ∧ (lookupF (retryPreviouslyFailedNotifications
        (retryPreviouslyFailedNotifications [failedT1] demoWorkspaces
          demoCache failingSend "t1").failed
        demoWorkspaces demoCache failingSend "t2").failed "T1" = none)
    ∧ ("T1" ∉ (retryPreviouslyFailedNotifications
        (retryPreviouslyFailedNotifications [failedT1] demoWorkspaces
          demoCache failingSend "t1").failed
        demoWorkspaces demoCache failingSend "t2").attempts) := by
  have h1 := (failureTracker_bounded_retry [failedT1] demoWorkspaces demoCache
    failingSend "t1" failedT1 (by decide) (by decide)).2.1
    ⟨"T1", "W1", .en⟩ "boom" (by decide) (by decide) (by decide) rfl
  have hmem : (⟨"T1", "1.0.0", "boom", "t1", 3⟩ : FailedNotification) ∈
      (retryPreviouslyFailedNotifications [failedT1] demoWorkspaces demoCache
        failingSend "t1").failed := by decide
  have hnd : ((retryPreviouslyFailedNotifications [failedT1] demoWorkspaces
      demoCache failingSend "t1").failed.map (fun f => f.teamId)).Nodup := by
    decide
  have h2 := (failureTracker_bounded_retry
    (retryPreviouslyFailedNotifications [failedT1] demoWorkspaces demoCache
      failingSend "t1").failed
    demoWorkspaces demoCache failingSend "t2"
    ⟨"T1", "1.0.0", "boom", "t1", 3⟩ hnd hmem).1 (by decide)
  exact ⟨h1.1, h2.1, h2.2⟩

/-! #### Orchestrator lemmas -/

/-- One group step never writes a cache entry. -/
theorem processGroup_cache_mono (ws : List Workspace)
    (send : Workspace → Option String) (now : String) (st : RetryState)
    (g : String × List FailedNotification) (v : String) (l : Language) :
    (processGroup ws send now st g).cache v l = st.cache v l ∨
    (processGroup ws send now st g).cache v l = none := by
  unfold processGroup
  dsimp only
  split
  · exact getAll_fst_mono st.cache g.1 v l
  · rw [pfFold_cache]
    exact getAll_fst_mono st.cache g.1 v l

/-- The retry phase never writes a cache entry: an absent key stays
absent. -/
theorem retryPhase_cache_none (store : List FailedNotification)
    (ws : List Workspace) (cache : SummaryStore)
    (send : Workspace → Option String) (now : String) (v : String)
    (l : Language) (h : cache v l = none) :
    (retryPreviouslyFailedNotifications store ws cache send now).cache v l =
      none := by
  unfold retryPreviouslyFailedNotifications
  split
  · exact h
  · have : ∀ (gs : List (String × List FailedNotification)) (st : RetryState),
        st.cache v l = none →
        (gs.foldl (processGroup ws send now) st).cache v l = none := by
      intro gs
      induction gs with
      | nil => exact fun st h => h
      | cons g rest ih =>
        intro st hst
        rw [List.foldl_cons]
        refine ih _ ?_
        rcases processGroup_cache_mono ws send now st g v l with hc | hc
        · rw [hc, hst]
        · exact hc
    exact this _ ⟨store, cache, []⟩ h

/-- With no cached entries for the version and a generator failing for
every language, pregenerate produces an empty result mapping. -/
theorem pregenerate_all_fail (st : SummaryStore) (v : String)
    (gen : Language → Option ChangeSummary)
    (hgen : ∀ l, gen l = none) (hst : ∀ l, st v l = none) :
    (pregenerate st v gen).2.1 = [] := by
  have he := hst Language.en
  have hk := hst Language.ko
  unfold pregenerate getAll SUPPORTED_LANGUAGES
  simp only [List.foldl]
  simp only [getAllStep, he, hk]
  simp only [List.filter, lookupLang, Option.isNone_none, List.isEmpty_cons,
    if_false, List.foldl_cons, List.foldl_nil]
  unfold pregenStep
  rw [hgen .en, hgen .ko]
  rfl

/-- Claim C7 (executeNotification part): on a detected new version with
relevant changes and active workspaces, if generation yields zero valid
summaries then the pass records the error, makes no main-phase delivery,
and does not advance the version pointer. -/
theorem executeNotification_abort (env : Env) (tag : TagInfo)
    (h2 : env.latestTag = some tag)
    (h3 : isNewerVersion tag.name env.lastCheckedVersion = true)
    (h4 : env.activeWorkspaces ≠ [])
    (h5 : env.diff.files ≠ [] ∨
      (env.cliChangelog.getD ⟨[], ""⟩).changes ≠ [])
    (hpre : (pregenerate (retryPreviouslyFailedNotifications env.failedStore
      env.activeWorkspaces env.cacheStore env.sendOutcome env.now).cache
      tag.name env.gen).2.1 = []) :
    (executeNotification env).mainDelivery = none ∧
    (executeNotification env).versionWrites = [] ∧
    (executeNotification env).errorRecorded =
      some "Failed to generate any summaries, cannot proceed" := by
  have hws : env.activeWorkspaces.isEmpty = false := by
    simp [List.isEmpty_iff, h4]
  have hchanges : (env.diff.files.isEmpty &&
      (env.cliChangelog.getD ⟨[], ""⟩).changes.isEmpty) = false := by
    rcases h5 with h | h <;> simp [List.isEmpty_iff, h]
  unfold executeNotification
  rw [h2]
  dsimp only
  rw [h3]
  simp only [Bool.not_true, Bool.false_eq_true, if_false, hws, hchanges,
    hpre, List.isEmpty_nil, if_true]
  exact ⟨trivial, trivial, trivial⟩

/-- Claim C7: with the lock free, a new version detected, relevant
changes, active workspaces, but zero valid generated summaries, the run
aborts before delivery and before advancing the version pointer, records
the error, and still releases the lock on that exit path. -/
theorem run_total_generation_failure (lockSt : LockStore) (env : Env)
    (lockValue : String) (tag : TagInfo)
    (h1 : lockSt NOTIFICATION_LOCK_KEY = none)
    (h2 : env.latestTag = some tag)
    (h3 : isNewerVersion tag.name env.lastCheckedVersion = true)
    (h4 : env.activeWorkspaces ≠ [])
    (h5 : env.diff.files ≠ [] ∨
      (env.cliChangelog.getD ⟨[], ""⟩).changes ≠ [])
    (hpre : (pregenerate (retryPreviouslyFailedNotifications env.failedStore
      env.activeWorkspaces env.cacheStore env.sendOutcome env.now).cache
      tag.name env.gen).2.1 = []) :
    (runMultiWorkspaceNotification lockSt env lockValue).effects.mainDelivery
      = none ∧
    (runMultiWorkspaceNotification lockSt env
      lockValue).effects.versionWrites = [] ∧
    (runMultiWorkspaceNotification lockSt env
      lockValue).effects.errorRecorded =
      some "Failed to generate any summaries, cannot proceed" ∧
    (runMultiWorkspaceNotification lockSt env lockValue).lockReleased =
      some true := by
  have hexec := executeNotification_abort env tag h2 h3 h4 h5 hpre
  have hacq : acquireLock lockSt NOTIFICATION_LOCK_KEY NOTIFICATION_LOCK_TTL
      lockValue =
      ((fun k => if k = NOTIFICATION_LOCK_KEY then some lockValue
        else lockSt k), some lockValue) := by
    unfold acquireLock
    rw [h1]
  unfold runMultiWorkspaceNotification
  rw [hacq]
  dsimp only
  refine ⟨hexec.1, hexec.2.1, hexec.2.2, ?_⟩
  unfold releaseLock
  simp

/-- Witness for C7: the concrete aborting run — no delivery, no version
advance, error recorded, lock still released. -/
theorem run_total_generation_failure_witness :
    (runMultiWorkspaceNotification emptyLockStore demoAbortEnv
      "uuid-1").effects.versionWrites = [] ∧
    (runMultiWorkspaceNotification emptyLockStore demoAbortEnv
      "uuid-1").effects.mainDelivery = none ∧
    (runMultiWorkspaceNotification emptyLockStore demoAbortEnv
      "uuid-1").lockReleased = some true := by
  have h := run_total_generation_failure emptyLockStore demoAbortEnv "uuid-1"
    ⟨"2.0.0", "sha", "2026-01-01"⟩ rfl rfl (by decide) (by decide)
    (Or.inl (by decide))
    (pregenerate_all_fail _ _ _ (fun _ => rfl)
      (fun l => retryPhase_cache_none _ _ _ _ _ _ l rfl))
  exact ⟨h.2.1, h.1, h.2.2.2⟩

end Changelog
